import Mathlib

/-!
Verification of the Relay operator scripts (`version.py` and
`debug-tools/watch.py`) against their natural-language specification.

The Python code is shallowly embedded: JSON documents become an inductive
`JValue`, the two manifest files become a `Files` state (path to parsed
document), the side effects of a run (file writes with their indentation
argument, git commands, prints, sleeps, API queries) are recorded as an
explicit `Eff` trace, and Python exceptions become an `Except PyError`
result.  Python `int()` is modelled for ASCII numerals (optional
surrounding whitespace, optional sign, decimal digits with single
underscores between digits), `str.split` on a single-character separator
is `pySplitDot`, and `str(int)` formatting is `intToChars`.
-/

/-- Digit value of a character, as used when folding a numeral. -/
def charVal (c : Char) : Nat := c.toNat - 48

/-- Value of a list of digit characters (underscores skipped), big-endian,
mirroring how CPython evaluates an accepted decimal numeral. -/
def charsVal (cs : List Char) : Nat :=
  cs.foldl (fun a c => if c = '_' then a else a * 10 + charVal c) 0

/-- Checks that no two consecutive characters are both underscores. -/
def noDoubleUS : List Char → Bool
  | c :: c2 :: rest => !(c = '_' && c2 = '_') && noDoubleUS (c2 :: rest)
  | _ => true

/-- Acceptance test of CPython for the digit part of a decimal numeral:
nonempty, first and last characters are digits, every character is a digit
or an underscore, and underscores are never adjacent. -/
def pyDigitsOK (cs : List Char) : Bool :=
  (cs.head?.any Char.isDigit) &&
  (cs.getLast?.any Char.isDigit) &&
  cs.all (fun c => c.isDigit || c = '_') &&
  noDoubleUS cs

/-- Strip leading and trailing whitespace, as Python int() does before
parsing. -/
def stripWS (cs : List Char) : List Char :=
  ((cs.dropWhile Char.isWhitespace).reverse.dropWhile Char.isWhitespace).reverse

/-- Model of Python int(s) on a character list: strip whitespace, accept an
optional sign followed by a valid digit sequence; None models ValueError. -/
def pyIntChars (cs : List Char) : Option Int :=
  match stripWS cs with
  | [] => none
  | c :: rest =>
    if c = '+' then
      if pyDigitsOK rest then some ((charsVal rest : Nat) : Int) else none
    else if c = '-' then
      if pyDigitsOK rest then some (-((charsVal rest : Nat) : Int)) else none
    else
      if pyDigitsOK (c :: rest) then some ((charsVal (c :: rest) : Nat) : Int)
      else none

/-- Fuel-driven digit printer: digits of n in base ten, most significant
first, for any fuel at least n. -/
def natCharsAux : Nat → Nat → List Char
  | _, 0 => []
  | 0, _ => []
  | fuel + 1, n => natCharsAux fuel (n / 10) ++ [Nat.digitChar (n % 10)]

/-- Decimal digit characters of a natural number, most significant first,
mirroring Python str(n) for n at least 0. -/
def natToChars (n : Nat) : List Char :=
  if n = 0 then ['0'] else natCharsAux n n

/-- Decimal character representation of an integer, mirroring Python
str(i) on an int. -/
def intToChars (i : Int) : List Char :=
  if i < 0 then '-' :: natToChars i.natAbs else natToChars i.toNat

/-- Model of Python s.split(sep) for a one-character separator, here the
dot: splitting the empty string yields one empty field, and every dot
starts a new field. -/
def pySplitDot : List Char → List (List Char)
  | [] => [[]]
  | c :: rest =>
    if c = '.' then [] :: pySplitDot rest
    else
      match pySplitDot rest with
      | [] => [[c]]
      | g :: gs => (c :: g) :: gs

/-- Model of `major, minor, patch = map(int, current_version.split('.'))`:
the result is three integers exactly when the string has exactly three
dot-separated fields and each parses as a Python int; every failure mode
(wrong field count, unparsable field) raises ValueError, modelled as none. -/
def parseVersion (s : String) : Option (Int × Int × Int) :=
  match pySplitDot s.toList with
  | [a, b, c] =>
    match pyIntChars a, pyIntChars b, pyIntChars c with
    | some x, some y, some z => some (x, y, z)
    | _, _, _ => none
  | _ => none

/-- Model of the f-string interpolation building the new version:
f-string of major, dot, minor, dot, patch. -/
def versionChars (a b c : Int) : List Char :=
  intToChars a ++ '.' :: (intToChars b ++ '.' :: intToChars c)

/-- The new version string written by bump_version. -/
def formatVersion (a b c : Int) : String := ⟨versionChars a b c⟩

/-- JSON values as produced by json.load; manifests are jobj documents
whose fields keep insertion order, as Python dicts do. -/
inductive JValue where
  | jnull
  | jbool (b : Bool)
  | jnum (n : Int)
  | jstr (s : String)
  | jarr (elems : List JValue)
  | jobj (fields : List (String × JValue))

/-- Model of `data[k] = v` on a Python dict rendered as an ordered field
list: an existing key keeps its position and gets the new value, a missing
key is appended at the end. -/
def setKey : List (String × JValue) → String → JValue → List (String × JValue)
  | [], k, v => [(k, v)]
  | (k0, v0) :: rest, k, v =>
    if k0 = k then (k, v) :: rest else (k0, v0) :: setKey rest k v

/-- Model of `data[k]` on a Python dict: the value at the first matching
key, none when the key is absent (KeyError). -/
def getKey : List (String × JValue) → String → Option JValue
  | [], _ => none
  | (k0, v0) :: rest, k => if k0 = k then some v0 else getKey rest k

/-- The filesystem visible to version.py: each path holds a parsed JSON
document or is absent. -/
def Files : Type := String → Option JValue

/-- Overwrite the document stored at a path. -/
def writeFs (fs : Files) (p : String) (d : JValue) : Files :=
  fun q => if q = p then some d else fs q

/-- Observable side effects of a run of version.py, in program order.
writeJson records the json.dump call together with its indent argument. -/
inductive Eff where
  | writeJson (path : String) (doc : JValue) (indent : Nat)
  | gitPushDelete (remote : String) (tag : String)
  | gitDeleteTag (tag : String)
  | gitAdd (path : String)
  | gitCommit (msg : String)
  | gitPush (force : Bool)
  | createTag (tag : String)
  | remotePush (remote : String) (ref : String)
  | printLine (s : String)
  | sleep (secs : Nat)
  | getReleases (repoName : String)

/-- Python exceptions that the script can raise or catch. -/
inductive PyError where
  | fileNotFound
  | keyError
  | typeError
  | valueError
  | gitCommandError
  deriving DecidableEq

/-- Result of running a piece of the script: the filesystem afterwards,
the effects performed before returning or raising, and the outcome. -/
structure PyResult (α : Type) where
  fs : Files
  trace : List Eff
  out : Except PyError α

/-- Model of set_version: load the JSON document at file_path, assign the
version field verbatim, dump it back with indent=2 and return the version. -/
def set_version (fs : Files) (file_path : String) (new_version : String) :
    PyResult String :=
  match fs file_path with
  | none => ⟨fs, [], .error .fileNotFound⟩
  | some (JValue.jobj fields) =>
    let doc2 := JValue.jobj (setKey fields "version" (JValue.jstr new_version))
    ⟨writeFs fs file_path doc2, [Eff.writeJson file_path doc2 2], .ok new_version⟩
  | some _ => ⟨fs, [], .error .typeError⟩

/-- Shared tail of bump_version once the bumped triple is known: format
the f-string, assign the version field and dump with indent=2. -/
def writeBack (fs : Files) (file_path : String)
    (fields : List (String × JValue)) (a b c : Int) : PyResult String :=
  let new_version := formatVersion a b c
  let doc2 := JValue.jobj (setKey fields "version" (JValue.jstr new_version))
  ⟨writeFs fs file_path doc2, [Eff.writeJson file_path doc2 2], .ok new_version⟩

/-- Model of bump_version: load the document, read its version field,
parse it as three dot-separated ints, dispatch on version_type (raising
ValueError on any other mode before any write), then write back. -/
def bump_version (fs : Files) (file_path : String) (version_type : String) :
    PyResult String :=
  match fs file_path with
  | none => ⟨fs, [], .error .fileNotFound⟩
  | some (JValue.jobj fields) =>
    match getKey fields "version" with
    | none => ⟨fs, [], .error .keyError⟩
    | some (JValue.jstr current_version) =>
      match parseVersion current_version with
      | none => ⟨fs, [], .error .valueError⟩
      | some (major, minor, patch) =>
        if version_type = "major" then writeBack fs file_path fields (major + 1) 0 0
        else if version_type = "minor" then writeBack fs file_path fields major (minor + 1) 0
        else if version_type = "patch" then writeBack fs file_path fields major minor (patch + 1)
        else if version_type = "force" then writeBack fs file_path fields major minor patch
        else ⟨fs, [], .error .valueError⟩
    | some _ => ⟨fs, [], .error .typeError⟩
  | some _ => ⟨fs, [], .error .typeError⟩

/-- Which git commands fail with GitCommandError during this run; the
three fields are the three call sites the script wraps in try/except. -/
structure GitOracle where
  pushDeleteFails : Bool
  deleteTagFails : Bool
  commitFails : Bool
  deriving DecidableEq

/-- Outcome of `repo.git.push('--delete', REMOTE, tag_name)`. -/
def gitPushDeleteOp (o : GitOracle) : Except PyError Unit :=
  if o.pushDeleteFails then .error .gitCommandError else .ok ()

/-- Outcome of `repo.delete_tag(tag_name)`. -/
def gitDeleteTagOp (o : GitOracle) : Except PyError Unit :=
  if o.deleteTagFails then .error .gitCommandError else .ok ()

/-- Outcome of `repo.git.commit(m=...)`. -/
def gitCommitOp (o : GitOracle) : Except PyError Unit :=
  if o.commitFails then .error .gitCommandError else .ok ()

/-- Model of `try: ... except git.exc.GitCommandError: pass`: the handler
swallows exactly GitCommandError and lets any other outcome through. -/
def catchGitCommandError (r : Except PyError Unit) : Except PyError Unit :=
  match r with
  | .error .gitCommandError => .ok ()
  | r => r

/-- Model of delete_tag: push a tag deletion to the remote and delete the
local tag, each wrapped in a try/except that ignores GitCommandError;
returns the attempted commands and the outcome seen by the caller. -/
def delete_tag (o : GitOracle) (remote : String) (tag_name : String) :
    List Eff × Except PyError Unit :=
  match catchGitCommandError (gitPushDeleteOp o) with
  | .error e => ([Eff.gitPushDelete remote tag_name], .error e)
  | .ok _ =>
    match catchGitCommandError (gitDeleteTagOp o) with
    | .error e =>
      ([Eff.gitPushDelete remote tag_name, Eff.gitDeleteTag tag_name], .error e)
    | .ok _ =>
      ([Eff.gitPushDelete remote tag_name, Eff.gitDeleteTag tag_name], .ok ())

/-- Ambient environment of a run: which wrapped git commands fail, the tag
names of the releases the hosting API reports, and the ORIGIN variable. -/
structure Env where
  oracle : GitOracle
  releases : List String
  originVar : Option String

/-- Model of `os.environ.get("ORIGIN", "origin")`. -/
def remoteName (env : Env) : String := env.originVar.getD "origin"

/-- Path of the primary manifest. -/
def manifest_file : String := "manifest.json"

/-- Path of the beta manifest. -/
def beta_manifest_file : String := "manifest-beta.json"

/-- Hard-coded hosting-platform repository identifier. -/
def repo_name : String := "no-instructions/relay"

/-- Commit message for the version bump. -/
def commitMsg (v : String) : String := "version: bump the version to " ++ v

/-- Message printed before the fixed 30-second wait. -/
def waitingMsg : String := "Waiting for GitHub to create the release..."

/-- Message printed when the release is found. -/
def successMsg (v : String) : String := "Release " ++ v ++ " created successfully."

/-- Message printed when the release is not found. -/
def notFoundMsg (v : String) : String := "Release " ++ v ++ " not found."

/-- Model of main: bump the beta manifest, propagate to the primary
manifest, delete stale tags, stage and commit (commit failure swallowed),
push the branch (forced exactly when mode is force), create and push the
tag, print the waiting message, sleep 30 seconds, query the release list
once, and print the success or not-found message. -/
def mainRun (env : Env) (fs0 : Files) (version_type : String) : PyResult Unit :=
  let r1 := bump_version fs0 beta_manifest_file version_type
  match r1.out with
  | .error e => ⟨r1.fs, r1.trace, .error e⟩
  | .ok new_beta_version =>
    let r2 := set_version r1.fs manifest_file new_beta_version
    match r2.out with
    | .error e => ⟨r2.fs, r1.trace ++ r2.trace, .error e⟩
    | .ok new_version =>
      let dt := delete_tag env.oracle (remoteName env) new_version
      match dt.2 with
      | .error e => ⟨r2.fs, r1.trace ++ r2.trace ++ dt.1, .error e⟩
      | .ok _ =>
        let staged := [Eff.gitAdd manifest_file, Eff.gitAdd beta_manifest_file]
        match catchGitCommandError (gitCommitOp env.oracle) with
        | .error e =>
          ⟨r2.fs,
           r1.trace ++ r2.trace ++ dt.1 ++ staged ++
             [Eff.gitCommit (commitMsg new_version)],
           .error e⟩
        | .ok _ =>
          let force : Bool := version_type == "force"
          ⟨r2.fs,
           r1.trace ++ r2.trace ++ dt.1 ++ staged ++
             [Eff.gitCommit (commitMsg new_version),
              Eff.gitPush force,
              Eff.createTag new_version,
              Eff.remotePush (remoteName env) new_version,
              Eff.printLine waitingMsg,
              Eff.sleep 30,
              Eff.getReleases repo_name,
              Eff.printLine
                (if new_version ∈ env.releases then successMsg new_version
                 else notFoundMsg new_version)],
           .ok ()⟩

/-- Version field of the document stored at a path, when the document is
an object whose version field is a string. -/
def versionOf (fs : Files) (p : String) : Option String :=
  match fs p with
  | some (JValue.jobj fields) =>
    match getKey fields "version" with
    | some (JValue.jstr s) => some s
    | _ => none
  | _ => none

/-- One filesystem event as delivered by the inotify adapter to watch.py:
the event type names, the directory path and the file name. -/
structure InotifyEvent where
  type_names : List String
  path : String
  filename : String

/-- The log line watch.py prints for a modification event. -/
def modifiedLine (path filename : String) : String :=
  "Modified file: " ++ path ++ "/" ++ filename

/-- Output lines of the watch.py loop body for one event: exactly one
line when the type names contain IN_MODIFY, nothing otherwise. -/
def handleEvent (e : InotifyEvent) : List String :=
  if "IN_MODIFY" ∈ e.type_names then [modifiedLine e.path e.filename] else []

/-- Output of the watch.py event loop over a finite event sequence. -/
def watchOutput (events : List InotifyEvent) : List String :=
  events.foldr (fun e acc => handleEvent e ++ acc) []

/-- Facts about the ten decimal digit characters, checked by computation. -/
theorem digitChar_facts : ∀ d : Nat, d < 10 →
    (Nat.digitChar d).isDigit = true ∧ charVal (Nat.digitChar d) = d ∧
    Nat.digitChar d ≠ '_' ∧ Nat.digitChar d ≠ '.' ∧ Nat.digitChar d ≠ '+' ∧
    Nat.digitChar d ≠ '-' ∧ (Nat.digitChar d).isWhitespace = false := by decide

/-- A digit character is not the plus sign. -/
theorem isDigit_ne_plus {c : Char} (h : c.isDigit = true) : c ≠ '+' := by
  intro hc; subst hc; exact absurd h (by decide)

/-- A digit character is not the minus sign. -/
theorem isDigit_ne_minus {c : Char} (h : c.isDigit = true) : c ≠ '-' := by
  intro hc; subst hc; exact absurd h (by decide)

/-- A digit character is not a dot. -/
theorem isDigit_ne_dot {c : Char} (h : c.isDigit = true) : c ≠ '.' := by
  intro hc; subst hc; exact absurd h (by decide)

/-- A digit character is not an underscore. -/
theorem isDigit_ne_us {c : Char} (h : c.isDigit = true) : c ≠ '_' := by
  intro hc; subst hc; exact absurd h (by decide)

/-- A digit character is not whitespace. -/
theorem isDigit_not_ws {c : Char} (h : c.isDigit = true) : c.isWhitespace = false := by
  by_contra hw
  rw [Bool.not_eq_false] at hw
  unfold Char.isWhitespace at hw
  simp only [Bool.or_eq_true, decide_eq_true_eq] at hw
  rcases hw with ((h1 | h1) | h1) | h1 <;> subst h1 <;> exact absurd h (by decide)

/-- The fuel-driven printer agrees with the digits of Mathlib whenever
the fuel is sufficient. -/
theorem natCharsAux_eq (fuel : Nat) :
    ∀ n : Nat, n ≤ fuel →
      natCharsAux fuel n = ((Nat.digits 10 n).map Nat.digitChar).reverse := by
  induction fuel with
  | zero =>
    intro n h
    have hz : n = 0 := Nat.le_zero.mp h
    subst hz; simp [natCharsAux]
  | succ fuel ih =>
    intro n h
    cases n with
    | zero => simp [natCharsAux]
    | succ k =>
      have hdiv : (k + 1) / 10 ≤ fuel := by
        have := Nat.div_lt_self (Nat.succ_pos k) (by norm_num : 1 < 10)
        omega
      show natCharsAux fuel ((k + 1) / 10) ++ [Nat.digitChar ((k + 1) % 10)] = _
      rw [ih _ hdiv]
      rw [Nat.digits_def' (by norm_num : (1 : Nat) < 10) (Nat.succ_pos k)]
      rw [List.map_cons, List.reverse_cons]

/-- natToChars agrees with the digits of Mathlib. -/
theorem natToChars_eq_digits (n : Nat) :
    natToChars n = if n = 0 then ['0']
      else ((Nat.digits 10 n).map Nat.digitChar).reverse := by
  unfold natToChars
  by_cases hn : n = 0
  · rw [if_pos hn, if_pos hn]
  · rw [if_neg hn, if_neg hn, natCharsAux_eq n n (le_refl n)]

/-- Every character printed by natToChars is a decimal digit. -/
theorem natToChars_all_digit (n : Nat) : ∀ c ∈ natToChars n, c.isDigit = true := by
  intro c hc
  rw [natToChars_eq_digits] at hc
  by_cases hn : n = 0
  · rw [if_pos hn] at hc
    simp only [List.mem_singleton] at hc
    subst hc; decide
  · rw [if_neg hn] at hc
    rw [List.mem_reverse] at hc
    obtain ⟨d, hd, rfl⟩ := List.mem_map.mp hc
    exact (digitChar_facts d (Nat.digits_lt_base (by norm_num) hd)).1

/-- natToChars never prints the empty list. -/
theorem natToChars_ne_nil (n : Nat) : natToChars n ≠ [] := by
  rw [natToChars_eq_digits]
  split
  · simp
  · simp only [ne_eq, List.reverse_eq_nil_iff, List.map_eq_nil_iff]
    exact Nat.digits_ne_nil_iff_ne_zero.mpr (by assumption)

/-- A list of digit characters has no adjacent underscores. -/
theorem noDoubleUS_of_all_digit :
    ∀ cs : List Char, (∀ c ∈ cs, c.isDigit = true) → noDoubleUS cs = true := by
  intro cs
  induction cs with
  | nil => intro _; rfl
  | cons c rest ih =>
    intro h
    cases rest with
    | nil => rfl
    | cons c2 rest2 =>
      have hc : c ≠ '_' := isDigit_ne_us (h c (by simp))
      have htail : noDoubleUS (c2 :: rest2) = true :=
        ih (fun x hx => h x (List.mem_cons_of_mem _ hx))
      unfold noDoubleUS
      simp [hc, htail]

/-- The last element of a nonempty all-digit list is a digit. -/
theorem getLast?_any_digit (cs : List Char) (hne : cs ≠ [])
    (h : ∀ c ∈ cs, c.isDigit = true) : cs.getLast?.any Char.isDigit = true := by
  rw [List.getLast?_eq_getLast cs hne]
  exact h _ (List.getLast_mem hne)

/-- A nonempty list of digit characters passes the CPython numeral test. -/
theorem pyDigitsOK_of_all_digit (cs : List Char) (hne : cs ≠ [])
    (h : ∀ c ∈ cs, c.isDigit = true) : pyDigitsOK cs = true := by
  obtain ⟨c, rest, rfl⟩ := List.exists_cons_of_ne_nil hne
  unfold pyDigitsOK
  simp only [Bool.and_eq_true]
  refine ⟨⟨⟨?_, ?_⟩, ?_⟩, ?_⟩
  · simp only [List.head?_cons, Option.any_some]
    exact h c (by simp)
  · exact getLast?_any_digit _ hne h
  · rw [List.all_eq_true]
    intro x hx
    simp [h x hx]
  · exact noDoubleUS_of_all_digit _ h

/-- Appending one non-underscore character multiplies the value by ten and
adds the digit. -/
theorem charsVal_append_singleton (xs : List Char) (c : Char) (hc : c ≠ '_') :
    charsVal (xs ++ [c]) = charsVal xs * 10 + charVal c := by
  unfold charsVal
  rw [List.foldl_append]
  simp [hc]

/-- Folding the printed digits of a digit list recovers its base-ten value. -/
theorem charsVal_digits (L : List Nat) (h : ∀ d ∈ L, d < 10) :
    charsVal ((L.map Nat.digitChar).reverse) = Nat.ofDigits 10 L := by
  induction L with
  | nil => simp [charsVal, Nat.ofDigits]
  | cons d L ih =>
    have hd : d < 10 := h d (by simp)
    have hfacts := digitChar_facts d hd
    rw [List.map_cons, List.reverse_cons, charsVal_append_singleton _ _ hfacts.2.2.1]
    rw [ih (fun x hx => h x (List.mem_cons_of_mem _ hx))]
    rw [Nat.ofDigits_cons, hfacts.2.1]
    ring

/-- natToChars prints the decimal representation of its argument. -/
theorem charsVal_natToChars (n : Nat) : charsVal (natToChars n) = n := by
  rw [natToChars_eq_digits]
  by_cases hn : n = 0
  · rw [if_pos hn, hn]; decide
  · rw [if_neg hn]
    rw [charsVal_digits _ (fun d hd => Nat.digits_lt_base (by norm_num) hd)]
    exact Nat.ofDigits_digits 10 n

/-- The printed digits of a natural number pass the numeral test. -/
theorem pyDigitsOK_natToChars (n : Nat) : pyDigitsOK (natToChars n) = true :=
  pyDigitsOK_of_all_digit _ (natToChars_ne_nil n) (natToChars_all_digit n)

/-- dropWhile does nothing when the predicate fails everywhere. -/
theorem dropWhile_eq_self_of_none (p : Char → Bool) (l : List Char)
    (h : ∀ c ∈ l, p c = false) : l.dropWhile p = l := by
  cases l with
  | nil => rfl
  | cons c rest =>
    rw [List.dropWhile_cons]
    simp [h c (by simp)]

/-- Stripping whitespace does nothing to a whitespace-free list. -/
theorem stripWS_eq_self (cs : List Char) (h : ∀ c ∈ cs, c.isWhitespace = false) :
    stripWS cs = cs := by
  unfold stripWS
  rw [dropWhile_eq_self_of_none _ _ h]
  rw [dropWhile_eq_self_of_none _ _ (fun c hc => h c (List.mem_reverse.mp hc))]
  exact List.reverse_reverse cs

/-- Unfolding of pyIntChars on a list which whitespace stripping leaves
unchanged. -/
theorem pyIntChars_cons_eq (c : Char) (rest : List Char)
    (hws : stripWS (c :: rest) = c :: rest) :
    pyIntChars (c :: rest) =
      if c = '+' then
        if pyDigitsOK rest then some ((charsVal rest : Nat) : Int) else none
      else if c = '-' then
        if pyDigitsOK rest then some (-((charsVal rest : Nat) : Int)) else none
      else
        if pyDigitsOK (c :: rest) then some ((charsVal (c :: rest) : Nat) : Int)
        else none := by
  unfold pyIntChars
  rw [hws]

/-- Python int accepts a nonempty all-digit string and returns its value. -/
theorem pyIntChars_of_digits (cs : List Char) (hne : cs ≠ [])
    (h : ∀ c ∈ cs, c.isDigit = true) :
    pyIntChars cs = some ((charsVal cs : Nat) : Int) := by
  obtain ⟨c, rest, rfl⟩ := List.exists_cons_of_ne_nil hne
  have hws : ∀ x ∈ c :: rest, x.isWhitespace = false :=
    fun x hx => isDigit_not_ws (h x hx)
  have hc := h c (by simp)
  rw [pyIntChars_cons_eq c rest (stripWS_eq_self _ hws)]
  rw [if_neg (isDigit_ne_plus hc), if_neg (isDigit_ne_minus hc)]
  rw [if_pos (pyDigitsOK_of_all_digit _ (by simp) h)]

/-- Round trip of Python int over the printed digits of a natural number. -/
theorem pyIntChars_natToChars (n : Nat) : pyIntChars (natToChars n) = some (n : Int) := by
  rw [pyIntChars_of_digits _ (natToChars_ne_nil n) (natToChars_all_digit n)]
  rw [charsVal_natToChars]

/-- Round trip of Python int over Python str of any integer. -/
theorem pyIntChars_intToChars (i : Int) : pyIntChars (intToChars i) = some i := by
  unfold intToChars
  by_cases hi : i < 0
  · rw [if_pos hi]
    have hws : ∀ x ∈ '-' :: natToChars i.natAbs, x.isWhitespace = false := by
      intro x hx
      rcases List.mem_cons.mp hx with h1 | h1
      · subst h1; decide
      · exact isDigit_not_ws (natToChars_all_digit _ x h1)
    rw [pyIntChars_cons_eq '-' (natToChars i.natAbs) (stripWS_eq_self _ hws)]
    rw [if_neg (by decide : ¬ ('-' = '+')), if_pos rfl]
    rw [if_pos (pyDigitsOK_natToChars _)]
    rw [charsVal_natToChars]
    congr 1
    omega
  · rw [if_neg hi, pyIntChars_natToChars]
    congr 1
    omega

/-- No dot occurs in the printed form of an integer. -/
theorem dot_not_mem_intToChars (i : Int) : '.' ∉ intToChars i := by
  intro h
  unfold intToChars at h
  by_cases hi : i < 0
  · rw [if_pos hi] at h
    rcases List.mem_cons.mp h with h1 | h1
    · exact absurd h1 (by decide)
    · exact absurd (natToChars_all_digit _ '.' h1) (by decide)
  · rw [if_neg hi] at h
    exact absurd (natToChars_all_digit _ '.' h) (by decide)

/-- Splitting a dot-free list yields a single field. -/
theorem pySplitDot_no_dot (A : List Char) (h : '.' ∉ A) : pySplitDot A = [A] := by
  induction A with
  | nil => rfl
  | cons c rest ih =>
    have hc : c ≠ '.' := fun hh => h (hh ▸ List.mem_cons_self c rest)
    have hrest : '.' ∉ rest := fun hm => h (List.mem_cons_of_mem _ hm)
    simp only [pySplitDot]
    rw [if_neg hc, ih hrest]

/-- Splitting a list that starts with a dot-free field followed by a dot
peels off that field. -/
theorem pySplitDot_append (A R : List Char) (h : '.' ∉ A) :
    pySplitDot (A ++ '.' :: R) = A :: pySplitDot R := by
  induction A with
  | nil => simp [pySplitDot]
  | cons c rest ih =>
    have hc : c ≠ '.' := fun hh => h (hh ▸ List.mem_cons_self c rest)
    have hrest : '.' ∉ rest := fun hm => h (List.mem_cons_of_mem _ hm)
    rw [List.cons_append]
    simp only [pySplitDot]
    rw [if_neg hc, ih hrest]

/-- Round trip: parsing the formatted version string recovers the triple.
This is the invariant that the string written by bump_version has exactly
three integer components. -/
theorem parseVersion_formatVersion (a b c : Int) :
    parseVersion (formatVersion a b c) = some (a, b, c) := by
  unfold parseVersion formatVersion
  have htl : (⟨versionChars a b c⟩ : String).toList = versionChars a b c := rfl
  rw [htl]
  unfold versionChars
  rw [pySplitDot_append _ _ (dot_not_mem_intToChars a)]
  rw [pySplitDot_append _ _ (dot_not_mem_intToChars b)]
  rw [pySplitDot_no_dot _ (dot_not_mem_intToChars c)]
  simp [pyIntChars_intToChars]

/-- Reading back the key just assigned yields the assigned value. -/
theorem getKey_setKey_same (f : List (String × JValue)) (k : String) (v : JValue) :
    getKey (setKey f k v) k = some v := by
  induction f with
  | nil => simp [setKey, getKey]
  | cons p rest ih =>
    obtain ⟨k0, v0⟩ := p
    by_cases h : k0 = k
    · simp [setKey, getKey, h]
    · simp [setKey, getKey, h, ih]

/-- Assigning one key leaves every other key unchanged. -/
theorem getKey_setKey_other (f : List (String × JValue)) (k k' : String)
    (v : JValue) (hne : k' ≠ k) :
    getKey (setKey f k v) k' = getKey f k' := by
  induction f with
  | nil => simp [setKey, getKey, Ne.symm hne]
  | cons p rest ih =>
    obtain ⟨k0, v0⟩ := p
    by_cases h : k0 = k
    · subst h
      simp [setKey, getKey, Ne.symm hne]
    · by_cases h2 : k0 = k'
      · subst h2
        simp [setKey, getKey, h]
      · simp [setKey, getKey, h, h2, ih]

/-- Reading the path just written yields the written document. -/
theorem writeFs_same (fs : Files) (p : String) (d : JValue) :
    writeFs fs p d p = some d := by
  simp [writeFs]

/-- Writing one path leaves every other path unchanged. -/
theorem writeFs_other (fs : Files) (p : String) (d : JValue) (q : String)
    (h : q ≠ p) : writeFs fs p d q = fs q := by
  simp [writeFs, h]

/-- Unfolding of set_version on a present JSON object. -/
theorem set_version_eq (fs : Files) (p nv : String)
    (fields : List (String × JValue)) (hp : fs p = some (JValue.jobj fields)) :
    set_version fs p nv =
      ⟨writeFs fs p (JValue.jobj (setKey fields "version" (JValue.jstr nv))),
       [Eff.writeJson p (JValue.jobj (setKey fields "version" (JValue.jstr nv))) 2],
       .ok nv⟩ := by
  unfold set_version
  rw [hp]

/-- Unfolding of bump_version once the manifest is a JSON object whose
version field is a string that parses as three integers: the run reduces
to the mode dispatch of the source. -/
theorem bump_version_eq (fs : Files) (p m : String)
    (fields : List (String × JValue)) (s : String) (a b c : Int)
    (hp : fs p = some (JValue.jobj fields))
    (hv : getKey fields "version" = some (JValue.jstr s))
    (hs : parseVersion s = some (a, b, c)) :
    bump_version fs p m =
      if m = "major" then writeBack fs p fields (a + 1) 0 0
      else if m = "minor" then writeBack fs p fields a (b + 1) 0
      else if m = "patch" then writeBack fs p fields a b (c + 1)
      else if m = "force" then writeBack fs p fields a b c
      else ⟨fs, [], .error .valueError⟩ := by
  unfold bump_version
  rw [hp]
  simp only [hv, hs]

/-- delete_tag attempts the remote deletion and the local deletion and
always returns normally, whichever of the two git commands fail. -/
theorem delete_tag_spec (o : GitOracle) (remote tag : String) :
    delete_tag o remote tag =
      ([Eff.gitPushDelete remote tag, Eff.gitDeleteTag tag], .ok ()) := by
  unfold delete_tag catchGitCommandError gitPushDeleteOp gitDeleteTagOp
  rcases o with ⟨pd, dt, cm⟩
  cases pd <;> cases dt <;> rfl

/-- The try/except around the commit swallows a failing commit. -/
theorem commit_catch_spec (o : GitOracle) :
    catchGitCommandError (gitCommitOp o) = .ok () := by
  unfold catchGitCommandError gitCommitOp
  rcases o with ⟨pd, dt, cm⟩
  cases cm <;> rfl

/-- The version string bump_version computes for each of the four valid
modes, written as the mode dispatch of the source. -/
def bumpString (m : String) (a b c : Int) : String :=
  if m = "major" then formatVersion (a + 1) 0 0
  else if m = "minor" then formatVersion a (b + 1) 0
  else if m = "patch" then formatVersion a b (c + 1)
  else formatVersion a b c

/-- The two manifest paths differ. -/
theorem manifest_paths_ne : manifest_file ≠ beta_manifest_file := by decide

/-- Decomposition of a run of main once bump_version reduces to a
writeBack of some bumped triple: the whole effect trace and final
filesystem, in program order. -/
theorem mainRun_writeBack (env : Env) (fs0 : Files) (m : String)
    (bfields gfields : List (String × JValue)) (a2 b2 c2 : Int)
    (h1 : bump_version fs0 beta_manifest_file m =
      writeBack fs0 beta_manifest_file bfields a2 b2 c2)
    (hprim : fs0 manifest_file = some (JValue.jobj gfields)) :
    mainRun env fs0 m =
      ⟨writeFs
         (writeFs fs0 beta_manifest_file
           (JValue.jobj (setKey bfields "version"
             (JValue.jstr (formatVersion a2 b2 c2)))))
         manifest_file
         (JValue.jobj (setKey gfields "version"
           (JValue.jstr (formatVersion a2 b2 c2)))),
       [Eff.writeJson beta_manifest_file
          (JValue.jobj (setKey bfields "version"
            (JValue.jstr (formatVersion a2 b2 c2)))) 2,
        Eff.writeJson manifest_file
          (JValue.jobj (setKey gfields "version"
            (JValue.jstr (formatVersion a2 b2 c2)))) 2,
        Eff.gitPushDelete (remoteName env) (formatVersion a2 b2 c2),
        Eff.gitDeleteTag (formatVersion a2 b2 c2),
        Eff.gitAdd manifest_file,
        Eff.gitAdd beta_manifest_file,
        Eff.gitCommit (commitMsg (formatVersion a2 b2 c2)),
        Eff.gitPush (m == "force"),
        Eff.createTag (formatVersion a2 b2 c2),
        Eff.remotePush (remoteName env) (formatVersion a2 b2 c2),
        Eff.printLine waitingMsg,
        Eff.sleep 30,
        Eff.getReleases repo_name,
        Eff.printLine
          (if formatVersion a2 b2 c2 ∈ env.releases then
            successMsg (formatVersion a2 b2 c2)
           else notFoundMsg (formatVersion a2 b2 c2))],
       .ok ()⟩ := by
  have h2 : writeFs fs0 beta_manifest_file
      (JValue.jobj (setKey bfields "version"
        (JValue.jstr (formatVersion a2 b2 c2)))) manifest_file =
      some (JValue.jobj gfields) := by
    rw [writeFs_other _ _ _ _ manifest_paths_ne, hprim]
  have h3 := set_version_eq
    (writeFs fs0 beta_manifest_file
      (JValue.jobj (setKey bfields "version"
        (JValue.jstr (formatVersion a2 b2 c2)))))
    manifest_file (formatVersion a2 b2 c2) gfields h2
  simp only [mainRun, h1, writeBack, h3, delete_tag_spec, commit_catch_spec]
  rfl

/-- Example filesystem: both manifests present, the beta manifest carries
an extra field, both version fields are 1.2.3. -/
def fsEx : Files := fun p =>
  if p = "manifest-beta.json" then
    some (JValue.jobj [("version", JValue.jstr "1.2.3"), ("name", JValue.jstr "relay")])
  else if p = "manifest.json" then
    some (JValue.jobj [("version", JValue.jstr "1.2.3")])
  else none

/-- Example environment: no wrapped git command fails, the release list
holds exactly the 1.3.0 tag, ORIGIN unset. -/
def envEx : Env := ⟨⟨false, false, false⟩, ["1.3.0"], none⟩

/-- C1: for every beta manifest whose version field parses as three
integers a.b.c and for every mode among major, minor and patch,
bump_version (a function of its inputs, hence deterministic) writes and
returns exactly (a+1).0.0, a.(b+1).0 and a.b.(c+1) respectively, and each
resulting version string parses back as exactly three integer components. -/
theorem C1_bump_modes (fs : Files) (p s : String)
    (bfields : List (String × JValue)) (a b c : Int)
    (hp : fs p = some (JValue.jobj bfields))
    (hv : getKey bfields "version" = some (JValue.jstr s))
    (hs : parseVersion s = some (a, b, c)) :
    bump_version fs p "major" = writeBack fs p bfields (a + 1) 0 0 ∧
    bump_version fs p "minor" = writeBack fs p bfields a (b + 1) 0 ∧
    bump_version fs p "patch" = writeBack fs p bfields a b (c + 1) ∧
    (bump_version fs p "major").out = Except.ok (formatVersion (a + 1) 0 0) ∧
    (bump_version fs p "minor").out = Except.ok (formatVersion a (b + 1) 0) ∧
    (bump_version fs p "patch").out = Except.ok (formatVersion a b (c + 1)) ∧
    parseVersion (formatVersion (a + 1) 0 0) = some (a + 1, 0, 0) ∧
    parseVersion (formatVersion a (b + 1) 0) = some (a, b + 1, 0) ∧
    parseVersion (formatVersion a b (c + 1)) = some (a, b, c + 1) := by
  have hM : bump_version fs p "major" = writeBack fs p bfields (a + 1) 0 0 := by
    rw [bump_version_eq fs p "major" bfields s a b c hp hv hs]; rfl
  have hN : bump_version fs p "minor" = writeBack fs p bfields a (b + 1) 0 := by
    rw [bump_version_eq fs p "minor" bfields s a b c hp hv hs]; rfl
  have hP : bump_version fs p "patch" = writeBack fs p bfields a b (c + 1) := by
    rw [bump_version_eq fs p "patch" bfields s a b c hp hv hs]; rfl
  refine ⟨hM, hN, hP, ?_, ?_, ?_, parseVersion_formatVersion _ _ _,
    parseVersion_formatVersion _ _ _, parseVersion_formatVersion _ _ _⟩
  · rw [hM]; rfl
  · rw [hN]; rfl
  · rw [hP]; rfl

/-- C1 witness: a concrete minor bump of 1.2.3 writes back 1.3.0. -/
theorem C1_bump_modes_witness :
    bump_version fsEx "manifest-beta.json" "minor" =
      writeBack fsEx "manifest-beta.json"
        [("version", JValue.jstr "1.2.3"), ("name", JValue.jstr "relay")] 1 (2 + 1) 0 :=
  (C1_bump_modes fsEx "manifest-beta.json" "1.2.3"
    [("version", JValue.jstr "1.2.3"), ("name", JValue.jstr "relay")]
    1 2 3 rfl rfl rfl).2.1

/-- Decomposition of a run of main from an arbitrary successful
bump_version result: the whole effect trace and final filesystem. -/
theorem mainRun_expand (env : Env) (fs0 : Files) (m v : String) (bdoc : JValue)
    (gfields : List (String × JValue))
    (h1 : bump_version fs0 beta_manifest_file m =
      ⟨writeFs fs0 beta_manifest_file bdoc,
       [Eff.writeJson beta_manifest_file bdoc 2], Except.ok v⟩)
    (hprim : fs0 manifest_file = some (JValue.jobj gfields)) :
    mainRun env fs0 m =
      ⟨writeFs (writeFs fs0 beta_manifest_file bdoc) manifest_file
         (JValue.jobj (setKey gfields "version" (JValue.jstr v))),
       [Eff.writeJson beta_manifest_file bdoc 2,
        Eff.writeJson manifest_file
          (JValue.jobj (setKey gfields "version" (JValue.jstr v))) 2,
        Eff.gitPushDelete (remoteName env) v,
        Eff.gitDeleteTag v,
        Eff.gitAdd manifest_file,
        Eff.gitAdd beta_manifest_file,
        Eff.gitCommit (commitMsg v),
        Eff.gitPush (m == "force"),
        Eff.createTag v,
        Eff.remotePush (remoteName env) v,
        Eff.printLine waitingMsg,
        Eff.sleep 30,
        Eff.getReleases repo_name,
        Eff.printLine (if v ∈ env.releases then successMsg v else notFoundMsg v)],
       Except.ok ()⟩ := by
  have h2 : writeFs fs0 beta_manifest_file bdoc manifest_file =
      some (JValue.jobj gfields) := by
    rw [writeFs_other _ _ _ _ manifest_paths_ne, hprim]
  have h3 := set_version_eq (writeFs fs0 beta_manifest_file bdoc)
    manifest_file v gfields h2
  simp only [mainRun, h1, h3, delete_tag_spec, commit_catch_spec]
  rfl

/-- Inversion of a successful bump_version: the file held a JSON object
and the run wrote exactly the bumped document with a single dump call. -/
theorem bump_version_ok_shape (fs : Files) (p m v : String)
    (h : (bump_version fs p m).out = Except.ok v) :
    ∃ fields, fs p = some (JValue.jobj fields) ∧
      bump_version fs p m =
        ⟨writeFs fs p (JValue.jobj (setKey fields "version" (JValue.jstr v))),
         [Eff.writeJson p (JValue.jobj (setKey fields "version" (JValue.jstr v))) 2],
         Except.ok v⟩ := by
  rcases hfp : fs p with _ | d
  · exfalso; simp [bump_version, hfp] at h
  · cases d
    case jobj fields =>
      rcases hgv : getKey fields "version" with _ | val
      · exfalso; simp [bump_version, hfp, hgv] at h
      · cases val
        case jstr s =>
          rcases hpv : parseVersion s with _ | t
          · exfalso; simp [bump_version, hfp, hgv, hpv] at h
          · obtain ⟨a, b, c⟩ := t
            have heq := bump_version_eq fs p m fields s a b c hfp hgv hpv
            rw [heq] at h ⊢
            by_cases h1 : m = "major"
            · rw [if_pos h1] at h ⊢
              simp [writeBack] at h
              subst h
              exact ⟨fields, rfl, rfl⟩
            · rw [if_neg h1] at h ⊢
              by_cases h2 : m = "minor"
              · rw [if_pos h2] at h ⊢
                simp [writeBack] at h
                subst h
                exact ⟨fields, rfl, rfl⟩
              · rw [if_neg h2] at h ⊢
                by_cases h3 : m = "patch"
                · rw [if_pos h3] at h ⊢
                  simp [writeBack] at h
                  subst h
                  exact ⟨fields, rfl, rfl⟩
                · rw [if_neg h3] at h ⊢
                  by_cases h4 : m = "force"
                  · rw [if_pos h4] at h ⊢
                    simp [writeBack] at h
                    subst h
                    exact ⟨fields, rfl, rfl⟩
                  · rw [if_neg h4] at h ⊢
                    simp at h
        all_goals exfalso; simp [bump_version, hfp, hgv] at h
    all_goals exfalso; simp [bump_version, hfp] at h

/-- Inversion of a successful run of main: both manifests held JSON
objects, bump_version succeeded with some version string, and the run has
the full shape of mainRun_expand. -/
theorem mainRun_ok_inv (env : Env) (fs0 : Files) (m : String)
    (h : (mainRun env fs0 m).out = Except.ok ()) :
    ∃ v bfields gfields,
      (bump_version fs0 beta_manifest_file m).out = Except.ok v ∧
      fs0 beta_manifest_file = some (JValue.jobj bfields) ∧
      fs0 manifest_file = some (JValue.jobj gfields) ∧
      mainRun env fs0 m =
        ⟨writeFs (writeFs fs0 beta_manifest_file
            (JValue.jobj (setKey bfields "version" (JValue.jstr v)))) manifest_file
            (JValue.jobj (setKey gfields "version" (JValue.jstr v))),
         [Eff.writeJson beta_manifest_file
            (JValue.jobj (setKey bfields "version" (JValue.jstr v))) 2,
          Eff.writeJson manifest_file
            (JValue.jobj (setKey gfields "version" (JValue.jstr v))) 2,
          Eff.gitPushDelete (remoteName env) v,
          Eff.gitDeleteTag v,
          Eff.gitAdd manifest_file,
          Eff.gitAdd beta_manifest_file,
          Eff.gitCommit (commitMsg v),
          Eff.gitPush (m == "force"),
          Eff.createTag v,
          Eff.remotePush (remoteName env) v,
          Eff.printLine waitingMsg,
          Eff.sleep 30,
          Eff.getReleases repo_name,
          Eff.printLine (if v ∈ env.releases then successMsg v else notFoundMsg v)],
         Except.ok ()⟩ := by
  rcases hout : (bump_version fs0 beta_manifest_file m).out with e | v
  · exfalso; simp [mainRun, hout] at h
  · obtain ⟨bfields, hbfp, hbeq⟩ := bump_version_ok_shape fs0 beta_manifest_file m v hout
    have hfs1 := writeFs_other fs0 beta_manifest_file
      (JValue.jobj (setKey bfields "version" (JValue.jstr v))) manifest_file
      manifest_paths_ne
    rcases hprim : fs0 manifest_file with _ | d
    · exfalso; simp [mainRun, hbeq, set_version, hfs1, hprim] at h
    · cases d
      case jobj gfields =>
        exact ⟨v, bfields, gfields, rfl, hbfp, rfl,
          mainRun_expand env fs0 m v _ gfields hbeq hprim⟩
      all_goals exfalso; simp [mainRun, hbeq, set_version, hfs1, hprim] at h

/-- The beta manifest of the final filesystem of a successful run holds
the bumped version. -/
theorem versionOf_final_beta (fs0 : Files) (bf gf : List (String × JValue))
    (v : String) :
    versionOf (writeFs (writeFs fs0 beta_manifest_file
        (JValue.jobj (setKey bf "version" (JValue.jstr v)))) manifest_file
        (JValue.jobj (setKey gf "version" (JValue.jstr v)))) beta_manifest_file =
      some v := by
  have h1 : writeFs (writeFs fs0 beta_manifest_file
      (JValue.jobj (setKey bf "version" (JValue.jstr v)))) manifest_file
      (JValue.jobj (setKey gf "version" (JValue.jstr v))) beta_manifest_file =
      some (JValue.jobj (setKey bf "version" (JValue.jstr v))) := by
    rw [writeFs_other _ _ _ _ (Ne.symm manifest_paths_ne), writeFs_same]
  simp only [versionOf, h1, getKey_setKey_same]

/-- The primary manifest of the final filesystem of a successful run holds
the bumped version. -/
theorem versionOf_final_primary (fs0 : Files) (bf gf : List (String × JValue))
    (v : String) :
    versionOf (writeFs (writeFs fs0 beta_manifest_file
        (JValue.jobj (setKey bf "version" (JValue.jstr v)))) manifest_file
        (JValue.jobj (setKey gf "version" (JValue.jstr v)))) manifest_file =
      some v := by
  have h1 : writeFs (writeFs fs0 beta_manifest_file
      (JValue.jobj (setKey bf "version" (JValue.jstr v)))) manifest_file
      (JValue.jobj (setKey gf "version" (JValue.jstr v))) manifest_file =
      some (JValue.jobj (setKey gf "version" (JValue.jstr v))) := writeFs_same _ _ _
  simp only [versionOf, h1, getKey_setKey_same]

/-- C2: for every canonical major.minor.patch version string (the
dot-join of the decimal forms of three non-negative integers) held by
both manifests, a run with mode force returns exactly that string, leaves
the version fields of both manifests unchanged (they read the same before
and after the run), and the branch push carries the force flag. -/
theorem C2_force_idempotent (env : Env) (fs0 : Files)
    (bfields gfields : List (String × JValue)) (M N P : Nat)
    (hbeta : fs0 beta_manifest_file = some (JValue.jobj bfields))
    (hbv : getKey bfields "version" =
      some (JValue.jstr (formatVersion (M : Int) (N : Int) (P : Int))))
    (hprim : fs0 manifest_file = some (JValue.jobj gfields))
    (hgv : getKey gfields "version" =
      some (JValue.jstr (formatVersion (M : Int) (N : Int) (P : Int)))) :
    (bump_version fs0 beta_manifest_file "force").out =
      Except.ok (formatVersion (M : Int) (N : Int) (P : Int)) ∧
    (mainRun env fs0 "force").out = Except.ok () ∧
    versionOf fs0 beta_manifest_file =
      some (formatVersion (M : Int) (N : Int) (P : Int)) ∧
    versionOf fs0 manifest_file =
      some (formatVersion (M : Int) (N : Int) (P : Int)) ∧
    versionOf (mainRun env fs0 "force").fs beta_manifest_file =
      some (formatVersion (M : Int) (N : Int) (P : Int)) ∧
    versionOf (mainRun env fs0 "force").fs manifest_file =
      some (formatVersion (M : Int) (N : Int) (P : Int)) ∧
    Eff.gitPush true ∈ (mainRun env fs0 "force").trace := by
  have hparse := parseVersion_formatVersion (M : Int) (N : Int) (P : Int)
  have hF : bump_version fs0 beta_manifest_file "force" =
      writeBack fs0 beta_manifest_file bfields (M : Int) (N : Int) (P : Int) := by
    rw [bump_version_eq fs0 beta_manifest_file "force" bfields _
      (M : Int) (N : Int) (P : Int) hbeta hbv hparse]
    rfl
  have hmain := mainRun_writeBack env fs0 "force" bfields gfields
    (M : Int) (N : Int) (P : Int) hF hprim
  refine ⟨?_, ?_, ?_, ?_, ?_, ?_, ?_⟩
  · rw [hF]; rfl
  · rw [hmain]
  · simp only [versionOf, hbeta, hbv]
  · simp only [versionOf, hprim, hgv]
  · rw [hmain]; exact versionOf_final_beta fs0 bfields gfields _
  · rw [hmain]; exact versionOf_final_primary fs0 bfields gfields _
  · rw [hmain]; simp

/-- C2 witness: a concrete force run on 1.2.3 succeeds and pushes with
the force flag. -/
theorem C2_witness :
    (bump_version fsEx beta_manifest_file "force").out =
      Except.ok (formatVersion ((1 : Nat) : Int) ((2 : Nat) : Int) ((3 : Nat) : Int)) ∧
    Eff.gitPush true ∈ (mainRun envEx fsEx "force").trace :=
  ⟨(C2_force_idempotent envEx fsEx
      [("version", JValue.jstr "1.2.3"), ("name", JValue.jstr "relay")]
      [("version", JValue.jstr "1.2.3")] 1 2 3 rfl rfl rfl rfl).1,
   (C2_force_idempotent envEx fsEx
      [("version", JValue.jstr "1.2.3"), ("name", JValue.jstr "relay")]
      [("version", JValue.jstr "1.2.3")] 1 2 3 rfl rfl rfl rfl).2.2.2.2.2.2⟩

/-- C3: any mode outside major, minor, patch, force makes bump_version
raise ValueError before any write: the filesystem is returned unchanged,
no write effect is recorded, and the whole run of main fails the same way
with both manifests untouched. -/
theorem C3_invalid_mode (env : Env) (fs0 : Files) (m s : String)
    (bfields : List (String × JValue)) (a b c : Int)
    (hbeta : fs0 beta_manifest_file = some (JValue.jobj bfields))
    (hv : getKey bfields "version" = some (JValue.jstr s))
    (hs : parseVersion s = some (a, b, c))
    (h1 : m ≠ "major") (h2 : m ≠ "minor") (h3 : m ≠ "patch") (h4 : m ≠ "force") :
    bump_version fs0 beta_manifest_file m =
      ⟨fs0, [], Except.error PyError.valueError⟩ ∧
    mainRun env fs0 m = ⟨fs0, [], Except.error PyError.valueError⟩ := by
  have hb : bump_version fs0 beta_manifest_file m =
      ⟨fs0, [], Except.error PyError.valueError⟩ := by
    rw [bump_version_eq fs0 beta_manifest_file m bfields s a b c hbeta hv hs]
    rw [if_neg h1, if_neg h2, if_neg h3, if_neg h4]
  refine ⟨hb, ?_⟩
  simp only [mainRun, hb]

/-- C3 witness: mode bogus on a well-formed beta manifest raises
ValueError and leaves the filesystem unchanged. -/
theorem C3_witness :
    bump_version fsEx beta_manifest_file "bogus" =
      ⟨fsEx, [], Except.error PyError.valueError⟩ :=
  (C3_invalid_mode envEx fsEx "bogus" "1.2.3"
    [("version", JValue.jstr "1.2.3"), ("name", JValue.jstr "relay")] 1 2 3
    rfl rfl rfl (by decide) (by decide) (by decide) (by decide)).1

/-- C4: after every successful run of main, whatever the mode, the primary
manifest and the beta manifest hold the same version string, namely the
one bump_version returned and set_version propagated verbatim. -/
theorem C4_propagation (env : Env) (fs0 : Files) (m : String)
    (h : (mainRun env fs0 m).out = Except.ok ()) :
    ∃ v, (bump_version fs0 beta_manifest_file m).out = Except.ok v ∧
      versionOf (mainRun env fs0 m).fs manifest_file = some v ∧
      versionOf (mainRun env fs0 m).fs beta_manifest_file = some v := by
  obtain ⟨v, bf, gf, hbout, hbfp, hprim, hmain⟩ := mainRun_ok_inv env fs0 m h
  exact ⟨v, hbout,
    by rw [hmain]; exact versionOf_final_primary fs0 bf gf v,
    by rw [hmain]; exact versionOf_final_beta fs0 bf gf v⟩

/-- C4 witness: a concrete minor run ends with both manifests at the same
version. -/
theorem C4_witness :
    ∃ v, (bump_version fsEx beta_manifest_file "minor").out = Except.ok v ∧
      versionOf (mainRun envEx fsEx "minor").fs manifest_file = some v ∧
      versionOf (mainRun envEx fsEx "minor").fs beta_manifest_file = some v :=
  C4_propagation envEx fsEx "minor" rfl

/-- C5: set_version and bump_version rewrite only the version field of the
manifest they touch: the document written back differs from the loaded one
only at the version key, every other key keeps its value, no other path of
the filesystem changes, and the single dump effect carries indent 2. -/
theorem C5_frame (fs : Files) (p nv m : String)
    (fields : List (String × JValue))
    (hp : fs p = some (JValue.jobj fields)) :
    ((set_version fs p nv).fs p =
        some (JValue.jobj (setKey fields "version" (JValue.jstr nv))) ∧
      (set_version fs p nv).trace =
        [Eff.writeJson p (JValue.jobj (setKey fields "version" (JValue.jstr nv))) 2] ∧
      (∀ q, q ≠ p → (set_version fs p nv).fs q = fs q)) ∧
    (∀ k, k ≠ "version" →
      getKey (setKey fields "version" (JValue.jstr nv)) k = getKey fields k) ∧
    (∀ v, (bump_version fs p m).out = Except.ok v →
      (bump_version fs p m).fs p =
        some (JValue.jobj (setKey fields "version" (JValue.jstr v))) ∧
      (bump_version fs p m).trace =
        [Eff.writeJson p (JValue.jobj (setKey fields "version" (JValue.jstr v))) 2] ∧
      (∀ k, k ≠ "version" →
        getKey (setKey fields "version" (JValue.jstr v)) k = getKey fields k) ∧
      (∀ q, q ≠ p → (bump_version fs p m).fs q = fs q)) := by
  have hsv := set_version_eq fs p nv fields hp
  refine ⟨⟨?_, ?_, ?_⟩, ?_, ?_⟩
  · rw [hsv]; exact writeFs_same fs p _
  · rw [hsv]
  · intro q hq; rw [hsv]; exact writeFs_other fs p _ q hq
  · intro k hk; exact getKey_setKey_other fields "version" k _ hk
  · intro v hov
    obtain ⟨fields2, hfp2, hbeq⟩ := bump_version_ok_shape fs p m v hov
    have hsame : fields2 = fields := by
      rw [hp] at hfp2
      injection hfp2 with h'
      injection h' with h''
      exact h''.symm
    subst hsame
    refine ⟨?_, ?_, ?_, ?_⟩
    · rw [hbeq]; exact writeFs_same fs p _
    · rw [hbeq]
    · intro k hk; exact getKey_setKey_other fields2 "version" k _ hk
    · intro q hq; rw [hbeq]; exact writeFs_other fs p _ q hq

/-- C5 witness: rewriting the version of a concrete manifest preserves its
other field and records a dump with indent 2. -/
theorem C5_witness :
    (set_version fsEx "manifest-beta.json" "9.9.9").fs "manifest-beta.json" =
      some (JValue.jobj (setKey
        [("version", JValue.jstr "1.2.3"), ("name", JValue.jstr "relay")]
        "version" (JValue.jstr "9.9.9"))) ∧
    getKey (setKey [("version", JValue.jstr "1.2.3"), ("name", JValue.jstr "relay")]
        "version" (JValue.jstr "9.9.9")) "name" =
      getKey [("version", JValue.jstr "1.2.3"), ("name", JValue.jstr "relay")] "name" := by
  have h := C5_frame fsEx "manifest-beta.json" "9.9.9" "patch"
    [("version", JValue.jstr "1.2.3"), ("name", JValue.jstr "relay")] rfl
  exact ⟨h.1.1, h.2.1 "name" (by decide)⟩

/-- The waiting message differs from every success message. -/
theorem waitingMsg_ne_successMsg (v : String) : waitingMsg ≠ successMsg v := by
  intro h
  have h1 : waitingMsg.data.head? = some 'W' := rfl
  rw [h] at h1
  have h2 : (successMsg v).data.head? = some 'R' := rfl
  rw [h1] at h2
  exact absurd h2 (by decide)

/-- The waiting message differs from every not-found message. -/
theorem waitingMsg_ne_notFoundMsg (v : String) : waitingMsg ≠ notFoundMsg v := by
  intro h
  have h1 : waitingMsg.data.head? = some 'W' := rfl
  rw [h] at h1
  have h2 : (notFoundMsg v).data.head? = some 'R' := rfl
  rw [h1] at h2
  exact absurd h2 (by decide)

/-- The success and not-found messages for the same version differ. -/
theorem successMsg_ne_notFoundMsg (v : String) : successMsg v ≠ notFoundMsg v := by
  intro h
  have hl := congrArg String.length h
  simp only [successMsg, notFoundMsg, String.length_append] at hl
  rw [show (" created successfully." : String).length = 22 from rfl,
      show (" not found." : String).length = 11 from rfl] at hl
  omega

/-- Recognizer of sleep effects. -/
def isSleepEff : Eff → Bool
  | Eff.sleep _ => true
  | _ => false

/-- Recognizer of release-list queries. -/
def isGetReleasesEff : Eff → Bool
  | Eff.getReleases _ => true
  | _ => false

/-- C6: each of the three wrapped git commands (remote tag deletion, local
tag deletion, commit) raises GitCommandError exactly when the oracle says
it fails, the enclosing try/except swallows that error, delete_tag always
performs both attempts and returns normally, and a whole run of main is
identical under any two failure oracles: the failures are unobservable. -/
theorem C6_git_failures_swallowed (o o2 : GitOracle) (remote tag : String)
    (rel : List String) (ov : Option String) (fs : Files) (m : String) :
    delete_tag o remote tag =
      ([Eff.gitPushDelete remote tag, Eff.gitDeleteTag tag], Except.ok ()) ∧
    (o.pushDeleteFails = true →
      gitPushDeleteOp o = Except.error PyError.gitCommandError) ∧
    (o.deleteTagFails = true →
      gitDeleteTagOp o = Except.error PyError.gitCommandError) ∧
    (o.commitFails = true →
      gitCommitOp o = Except.error PyError.gitCommandError) ∧
    catchGitCommandError (gitCommitOp o) = Except.ok () ∧
    mainRun ⟨o, rel, ov⟩ fs m = mainRun ⟨o2, rel, ov⟩ fs m := by
  refine ⟨delete_tag_spec o remote tag,
    fun h => by simp [gitPushDeleteOp, h],
    fun h => by simp [gitDeleteTagOp, h],
    fun h => by simp [gitCommitOp, h],
    commit_catch_spec o, ?_⟩
  simp only [mainRun, delete_tag_spec, commit_catch_spec, remoteName]

/-- C6 witness: with all three git commands failing, delete_tag still
returns normally and a run of main is identical to a failure-free run. -/
theorem C6_witness :
    delete_tag ⟨true, true, true⟩ "origin" "1.3.0" =
      ([Eff.gitPushDelete "origin" "1.3.0", Eff.gitDeleteTag "1.3.0"],
       Except.ok ()) ∧
    gitPushDeleteOp ⟨true, true, true⟩ = Except.error PyError.gitCommandError ∧
    mainRun ⟨⟨true, true, true⟩, ["1.3.0"], none⟩ fsEx "minor" =
      mainRun ⟨⟨false, false, false⟩, ["1.3.0"], none⟩ fsEx "minor" := by
  have h := C6_git_failures_swallowed ⟨true, true, true⟩ ⟨false, false, false⟩
    "origin" "1.3.0" ["1.3.0"] none fsEx "minor"
  exact ⟨h.1, h.2.1 rfl, h.2.2.2.2.2⟩

/-- C7: a successful run of main sleeps exactly once, for exactly 30
seconds, queries the release list exactly once, and its trace contains the
success print exactly when the bumped version is among the release tag
names, otherwise the not-found print; the run ends without error. -/
theorem C7_confirmation (env : Env) (fs0 : Files) (m : String)
    (h : (mainRun env fs0 m).out = Except.ok ()) :
    ∃ v, (bump_version fs0 beta_manifest_file m).out = Except.ok v ∧
      (mainRun env fs0 m).trace.filter isSleepEff = [Eff.sleep 30] ∧
      (mainRun env fs0 m).trace.filter isGetReleasesEff =
        [Eff.getReleases repo_name] ∧
      (Eff.printLine (successMsg v) ∈ (mainRun env fs0 m).trace ↔
        v ∈ env.releases) ∧
      (Eff.printLine (notFoundMsg v) ∈ (mainRun env fs0 m).trace ↔
        v ∉ env.releases) := by
  obtain ⟨v, bf, gf, hbout, hbfp, hprim, hmain⟩ := mainRun_ok_inv env fs0 m h
  refine ⟨v, hbout, ?_, ?_, ?_, ?_⟩
  · rw [hmain]; rfl
  · rw [hmain]; rfl
  · rw [hmain]
    by_cases hrel : v ∈ env.releases
    · simp [hrel]
    · simp [hrel, (waitingMsg_ne_successMsg v).symm, successMsg_ne_notFoundMsg v]
  · rw [hmain]
    by_cases hrel : v ∈ env.releases
    · simp [hrel, (waitingMsg_ne_notFoundMsg v).symm,
        (successMsg_ne_notFoundMsg v).symm]
    · simp [hrel]

/-- C7 witness: a concrete minor run whose release list holds the new tag
sleeps 30 once, queries once, and its trace holds the success print. -/
theorem C7_witness :
    ∃ v, (bump_version fsEx beta_manifest_file "minor").out = Except.ok v ∧
      (mainRun envEx fsEx "minor").trace.filter isSleepEff = [Eff.sleep 30] ∧
      (mainRun envEx fsEx "minor").trace.filter isGetReleasesEff =
        [Eff.getReleases repo_name] ∧
      (Eff.printLine (successMsg v) ∈ (mainRun envEx fsEx "minor").trace ↔
        v ∈ envEx.releases) ∧
      (Eff.printLine (notFoundMsg v) ∈ (mainRun envEx fsEx "minor").trace ↔
        v ∉ envEx.releases) :=
  C7_confirmation envEx fsEx "minor" rfl

/-- Beta manifest whose version string has four components. -/
def fsBad : Files := fun p =>
  if p = "manifest-beta.json" then
    some (JValue.jobj [("version", JValue.jstr "1.2.3.4")])
  else none

/-- Both manifests hold a version with a negative major component. -/
def fsNeg : Files := fun p =>
  if p = "manifest-beta.json" then
    some (JValue.jobj [("version", JValue.jstr "-1.2.3")])
  else if p = "manifest.json" then
    some (JValue.jobj [("version", JValue.jstr "-1.2.3")])
  else none

/-- C8: the watch.py loop body prints the modified-file line for an event
exactly when the event type names contain IN_MODIFY, and prints nothing
for any other event. -/
theorem C8_watcher_modify_only (e : InotifyEvent) :
    ("IN_MODIFY" ∈ e.type_names →
      handleEvent e = [modifiedLine e.path e.filename]) ∧
    ("IN_MODIFY" ∉ e.type_names → handleEvent e = []) ∧
    (handleEvent e = [modifiedLine e.path e.filename] ↔
      "IN_MODIFY" ∈ e.type_names) := by
  refine ⟨?_, ?_, ?_, ?_⟩
  · intro h
    unfold handleEvent
    rw [if_pos h]
  · intro h
    unfold handleEvent
    rw [if_neg h]
  · intro heq
    by_cases h : "IN_MODIFY" ∈ e.type_names
    · exact h
    · exfalso
      unfold handleEvent at heq
      rw [if_neg h] at heq
      exact List.noConfusion heq
  · intro h
    unfold handleEvent
    rw [if_pos h]

/-- C8 witness: a modify event on x.txt prints exactly the expected line,
a creation event prints nothing. -/
theorem C8_witness :
    handleEvent ⟨["IN_MODIFY"], "dir", "x.txt"⟩ = ["Modified file: dir/x.txt"] ∧
    handleEvent ⟨["IN_CREATE"], "dir", "x.txt"⟩ = [] :=
  ⟨(C8_watcher_modify_only ⟨["IN_MODIFY"], "dir", "x.txt"⟩).1 (by decide),
   (C8_watcher_modify_only ⟨["IN_CREATE"], "dir", "x.txt"⟩).2.1 (by decide)⟩

/-- C9: whenever the version string of the beta manifest does not split
into exactly three dot-separated fields, bump_version raises ValueError
under every mode, performing no write: the filesystem is returned
unchanged with an empty effect trace, and main fails the same way. -/
theorem C9_wrong_arity (env : Env) (fs0 : Files) (m s : String)
    (bfields : List (String × JValue))
    (hbeta : fs0 beta_manifest_file = some (JValue.jobj bfields))
    (hv : getKey bfields "version" = some (JValue.jstr s))
    (hlen : (pySplitDot s.toList).length ≠ 3) :
    bump_version fs0 beta_manifest_file m =
      ⟨fs0, [], Except.error PyError.valueError⟩ ∧
    mainRun env fs0 m = ⟨fs0, [], Except.error PyError.valueError⟩ := by
  have hp : parseVersion s = none := by
    unfold parseVersion
    rcases hsp : pySplitDot s.toList with _ | ⟨a1, _ | ⟨a2, _ | ⟨a3, _ | ⟨a4, rest⟩⟩⟩⟩
    · rfl
    · rfl
    · rfl
    · exfalso
      rw [hsp] at hlen
      simp at hlen
    · rfl
  have hb : bump_version fs0 beta_manifest_file m =
      ⟨fs0, [], Except.error PyError.valueError⟩ := by
    unfold bump_version
    rw [hbeta]
    simp only [hv, hp]
  refine ⟨hb, ?_⟩
  simp only [mainRun, hb]

/-- C9 witness: a four-component version string 1.2.3.4 makes bump_version
fail with ValueError and leave the filesystem untouched. -/
theorem C9_witness :
    bump_version fsBad beta_manifest_file "patch" =
      ⟨fsBad, [], Except.error PyError.valueError⟩ :=
  (C9_wrong_arity envEx fsBad "patch" "1.2.3.4"
    [("version", JValue.jstr "1.2.3.4")] rfl rfl (by decide)).1

/-- C10: bump_version does not enforce non-negative components: when the
beta version string parses as three integers at least one of which is
negative, a patch run still succeeds and writes the bumped version,
negative component included, to both manifests. -/
theorem C10_negative_components (env : Env) (fs0 : Files) (s : String)
    (bfields gfields : List (String × JValue)) (a b c : Int)
    (hbeta : fs0 beta_manifest_file = some (JValue.jobj bfields))
    (hv : getKey bfields "version" = some (JValue.jstr s))
    (hs : parseVersion s = some (a, b, c))
    (hneg : a < 0 ∨ b < 0 ∨ c < 0)
    (hprim : fs0 manifest_file = some (JValue.jobj gfields)) :
    (bump_version fs0 beta_manifest_file "patch").out =
      Except.ok (formatVersion a b (c + 1)) ∧
    (mainRun env fs0 "patch").out = Except.ok () ∧
    versionOf (mainRun env fs0 "patch").fs beta_manifest_file =
      some (formatVersion a b (c + 1)) ∧
    versionOf (mainRun env fs0 "patch").fs manifest_file =
      some (formatVersion a b (c + 1)) := by
  have hP : bump_version fs0 beta_manifest_file "patch" =
      writeBack fs0 beta_manifest_file bfields a b (c + 1) := by
    rw [bump_version_eq fs0 beta_manifest_file "patch" bfields s a b c hbeta hv hs]
    rfl
  have hmain := mainRun_writeBack env fs0 "patch" bfields gfields a b (c + 1)
    hP hprim
  refine ⟨by rw [hP]; rfl, by rw [hmain], ?_, ?_⟩
  · rw [hmain]; exact versionOf_final_beta fs0 bfields gfields _
  · rw [hmain]; exact versionOf_final_primary fs0 bfields gfields _

/-- C10 witness: a patch run on version -1.2.3 succeeds and leaves both
manifests at -1.2.4. -/
theorem C10_witness :
    versionOf (mainRun envEx fsNeg "patch").fs manifest_file = some "-1.2.4" ∧
    versionOf (mainRun envEx fsNeg "patch").fs beta_manifest_file = some "-1.2.4" :=
  ⟨(C10_negative_components envEx fsNeg "-1.2.3"
      [("version", JValue.jstr "-1.2.3")] [("version", JValue.jstr "-1.2.3")]
      (-1) 2 3 rfl rfl rfl (Or.inl (by decide)) rfl).2.2.2,
   (C10_negative_components envEx fsNeg "-1.2.3"
      [("version", JValue.jstr "-1.2.3")] [("version", JValue.jstr "-1.2.3")]
      (-1) 2 3 rfl rfl rfl (Or.inl (by decide)) rfl).2.2.1⟩
